import Mathlib

/-!
Shallow embedding of the thought-chain-mcp server core
(src/models.js, src/database.js, src/handlers.js).

Strings are modelled as Lean `String` (sequences of Unicode scalar values;
the JS source works on UTF-16 strings, but every property below concerns
characters in the Basic Multilingual Plane where the two notions agree).
JS regular-expression `test` calls are embedded as decidable Bool-valued
scanners over `List Char`.  Fallible JS code (throw / try-catch) is
embedded with `Except`.
-/

/-- Character 0x27, the single-quote character. -/
def quoteChar : Char := Char.ofNat 39

/-- Character 0x22, the double-quote character. -/
def dquoteChar : Char := Char.ofNat 34

/-- Character 0x5C, the backslash character. -/
def backslashChar : Char := Char.ofNat 92

/-- ASCII lower-casing, as applied by the case-insensitive `i` regex flag on
the ASCII-only patterns of models.js. -/
def asciiLower (c : Char) : Char :=
  if 65 ≤ c.toNat ∧ c.toNat ≤ 90 then Char.ofNat (c.toNat + 32) else c

/-- Lower-cased character list of a string. -/
def lowerList (s : List Char) : List Char := s.map asciiLower

/-- Substring test: does `pat` occur contiguously inside `s`?
Embeds JS `String.prototype.includes` / a literal regex alternative. -/
def subStr : List Char → List Char → Bool
  | pat, [] => pat.isEmpty
  | pat, c :: t => pat.isPrefixOf (c :: t) || subStr pat t

/-- Word character class of the JS regex token under the default flags:
ASCII letters, digits and underscore. -/
def isWordChar (c : Char) : Bool :=
  (97 ≤ c.toNat && c.toNat ≤ 122) || (65 ≤ c.toNat && c.toNat ≤ 90) ||
  (48 ≤ c.toNat && c.toNat ≤ 57) || c == '_'

/-- After at least one word character has been consumed, skip further word
characters and look for an equals sign. -/
def skipWordsFindEq : List Char → Bool
  | [] => false
  | c :: t => if c == '=' then true else isWordChar c && skipWordsFindEq t

/-- Match the tail of the markup pattern: one or more word characters
followed by an equals sign. -/
def wordPlusEq : List Char → Bool
  | [] => false
  | c :: t => isWordChar c && skipWordsFindEq t

/-- Scan for an occurrence of letters o n followed by one or more word
characters and an equals sign (an HTML event-handler attribute shape),
on an already lower-cased character list. -/
def hasOnHandler : List Char → Bool
  | [] => false
  | c :: t =>
    (c == 'o' && (match t with
      | c2 :: t2 => c2 == 'n' && wordPlusEq t2
      | [] => false)) || hasOnHandler t

/-- Embeds the models.js `dangerousPatterns` regex: case-insensitive search
for markup / script-scheme fragments. -/
def dangerousTest (s0 : List Char) : Bool :=
  let s := lowerList s0
  subStr "<script".toList s || subStr "javascript:".toList s ||
  subStr "data:text".toList s || subStr "vbscript:".toList s ||
  hasOnHandler s

/-- Character class of the models.js `injectionPatterns` regex: a quote,
double quote, semicolon or backslash. -/
def isInjChar (c : Char) : Bool :=
  c == quoteChar || c == dquoteChar || c == ';' || c == backslashChar

/-- Embeds the models.js `injectionPatterns` regex: any quote, double quote,
semicolon or backslash character, or a run of two or more dashes, or a
block-comment delimiter. -/
def injectionTest (s : List Char) : Bool :=
  s.any isInjChar || subStr "--".toList s ||
  subStr "/*".toList s || subStr "*/".toList s

/-- Embeds the models.js `controlCharacters` regex for thought and
reflection content: any code point in 0x00 to 0x1F, or 0x7F. -/
def isControlChar (c : Char) : Bool :=
  decide (c.toNat ≤ 31) || c.toNat == 127

/-- Does the string contain a character of the thought-content
control-character class? -/
def controlTest (s : List Char) : Bool := s.any isControlChar

/-- Embeds the recall-query `controlCharacters` regex of models.js: its
character class skips 0x09, 0x0A and 0x0D. -/
def isQueryControlChar (c : Char) : Bool :=
  decide (c.toNat ≤ 8) || c.toNat == 11 || c.toNat == 12 ||
  (decide (14 ≤ c.toNat) && decide (c.toNat ≤ 31)) || c.toNat == 127

/-- Does the string contain a character of the recall-query
control-character class? -/
def queryControlTest (s : List Char) : Bool := s.any isQueryControlChar

/-- Embeds the recall-query `searchPatterns` regex: angle brackets, quotes
and backslash. -/
def isSearchPatternChar (c : Char) : Bool :=
  c == '<' || c == '>' || c == quoteChar || c == dquoteChar || c == backslashChar

/-- Does the string contain a character of the `searchPatterns` class? -/
def searchPatternsTest (s : List Char) : Bool := s.any isSearchPatternChar

/-- Character class of the chain-identifier grammar of models.js. -/
def isIdChar (c : Char) : Bool :=
  (97 ≤ c.toNat && c.toNat ≤ 122) || (65 ≤ c.toNat && c.toNat ≤ 90) ||
  (48 ≤ c.toNat && c.toNat ≤ 57) || c == '_' || c == '-'

/-- The WhiteSpace and LineTerminator code points removed by the JS
`String.prototype.trim`. -/
def isJsSpace (c : Char) : Bool :=
  (decide (9 ≤ c.toNat) && decide (c.toNat ≤ 13)) || c.toNat == 32 ||
  c.toNat == 160 || c.toNat == 5760 ||
  (decide (8192 ≤ c.toNat) && decide (c.toNat ≤ 8202)) ||
  c.toNat == 8232 || c.toNat == 8233 || c.toNat == 8239 ||
  c.toNat == 8287 || c.toNat == 12288 || c.toNat == 65279

/-- Drop leading JS whitespace from a character list. -/
def dropJsSpace : List Char → List Char
  | [] => []
  | c :: t => if isJsSpace c then dropJsSpace t else c :: t

/-- JS `String.prototype.trim`, as a kernel-computable function. -/
def jsTrim (s : String) : String :=
  String.mk ((dropJsSpace ((dropJsSpace s.toList).reverse)).reverse)

/-- JS falsiness of a string-valued argument slot: absent, or present but
empty. -/
def falsyStr : Option String → Bool
  | none => true
  | some s => s == ""

/-- The distinct rejection reasons raised by `validateToolArguments` in
models.js, one constructor per distinct throw site (throw sites sharing one
message text share one constructor). -/
inductive VError
  | actionRequired
  | invalidAction (a : String)
  | thoughtRequired
  | thoughtTooLong
  | dangerousContent
  | dangerousPatterns
  | invalidCharacters
  | reflectionTooLong
  | reflectionDangerousContent
  | reflectionDangerousPatterns
  | reflectionInvalidChars
  | queryTooLong
  | queryInvalidChars
  | queryInvalidPath
  | limitInvalid
  | chainIdRequired
  | chainIdTooLong
  | chainIdInvalid
  | chainIdPath
  | unknownTool (t : String)
deriving DecidableEq, Repr

/-- The argument bag passed to `validateToolArguments`; each slot is absent
or a value of the type the callers of the source pass. -/
structure ToolArgs where
  action : Option String := none
  thought : Option String := none
  reflection : Option String := none
  query : Option String := none
  limit : Option Int := none
  chain_id : Option String := none
deriving DecidableEq, Repr

/-- The thought-content screening block of the `thought_chain` case of
models.js `validateToolArguments`, in source order: required, length,
markup filter, injection filter, control-character filter. -/
def checkThought (thought : Option String) : Except VError Unit :=
  if falsyStr thought then .error .thoughtRequired
  else
    let t := thought.getD ""
    if t.length > 10000 then .error .thoughtTooLong
    else if dangerousTest t.toList then .error .dangerousContent
    else if injectionTest t.toList then .error .dangerousPatterns
    else if controlTest t.toList then .error .invalidCharacters
    else .ok ()

/-- The reflection screening block of models.js: every check is guarded by
the truthiness of the reflection slot. -/
def checkReflection (r? : Option String) : Except VError Unit :=
  if falsyStr r? then .ok ()
  else
    let r := r?.getD ""
    if r.length > 5000 then .error .reflectionTooLong
    else if dangerousTest r.toList then .error .reflectionDangerousContent
    else if injectionTest r.toList then .error .reflectionDangerousPatterns
    else if controlTest r.toList then .error .reflectionInvalidChars
    else .ok ()

/-- The `thought_chain` case of models.js `validateToolArguments`. -/
def validateThoughtChainArgs (args : ToolArgs) : Except VError Unit :=
  if falsyStr args.action then .error .actionRequired
  else
    let a := args.action.getD ""
    if ¬ (a = "add_step" ∨ a = "review_chain" ∨ a = "conclude" ∨ a = "new_chain")
    then .error (.invalidAction a)
    else
      match (if a = "add_step" ∨ a = "conclude" then checkThought args.thought else .ok ()) with
      | .error e => .error e
      | .ok () => checkReflection args.reflection

/-- The recall-query screening block of models.js, in source order: length,
`searchPatterns`, query control characters, SQL patterns (textually
identical to the injection regex), path traversal.  The three
middle checks raise one identical message text. -/
def checkQuery (q : String) : Except VError Unit :=
  if q.length > 1000 then .error .queryTooLong
  else if searchPatternsTest q.toList then .error .queryInvalidChars
  else if queryControlTest q.toList then .error .queryInvalidChars
  else if injectionTest q.toList then .error .queryInvalidChars
  else if subStr "..".toList q.toList || q.toList.contains '/' then .error .queryInvalidPath
  else .ok ()

/-- The `recall_thoughts` case of models.js `validateToolArguments`.  The
limit bound check is guarded by JS truthiness, so a zero limit skips it. -/
def validateRecallArgs (args : ToolArgs) : Except VError Unit :=
  match (if falsyStr args.query then .ok () else checkQuery (args.query.getD "")) with
  | .error e => .error e
  | .ok () =>
    match args.limit with
    | none => .ok ()
    | some l =>
      if l == 0 then .ok ()
      else if l < 1 ∨ l > 100 then .error .limitInvalid
      else .ok ()

/-- The `load_thought_chain` case of models.js `validateToolArguments`. -/
def validateLoadArgs (args : ToolArgs) : Except VError Unit :=
  if falsyStr args.chain_id then .error .chainIdRequired
  else
    let cid := args.chain_id.getD ""
    if cid.length > 100 then .error .chainIdTooLong
    else if ¬ (1 ≤ cid.length ∧ cid.length ≤ 100 ∧ cid.toList.all isIdChar = true)
    then .error .chainIdInvalid
    else if subStr "..".toList cid.toList || cid.toList.contains '/' then .error .chainIdPath
    else .ok ()

/-- models.js `validateToolArguments`: dispatch on the tool name. -/
def validateToolArguments (tool : String) (args : ToolArgs) : Except VError Unit :=
  if tool = "thought_chain" then validateThoughtChainArgs args
  else if tool = "recall_thoughts" then validateRecallArgs args
  else if tool = "load_thought_chain" then validateLoadArgs args
  else .error (.unknownTool tool)

/-- A reasoning step of models.js `createThoughtStep`; numeric JS fields are
modelled as `Int`. -/
structure ThoughtStep where
  id : Int
  thought : String
  reflection : Option String
  timestamp : String
  is_conclusion : Bool
  builds_on : List Int
deriving DecidableEq, Repr

/-- A thought chain of models.js `createThoughtChain`. -/
structure ThoughtChain where
  id : String
  created : String
  updated : Option String
  concluded : Option String
  status : String
  steps : List ThoughtStep
deriving DecidableEq, Repr

/-- models.js `createThoughtChain`, with the generated identifier and the
clock reading passed explicitly. -/
def createThoughtChain (id now : String) : ThoughtChain :=
  ⟨id, now, none, none, "active", []⟩

/-- models.js `createThoughtStep`: trims the thought, maps a falsy
reflection to null and a truthy one to its trim, and derives `builds_on`
from the step number. -/
def createThoughtStep (stepId : Int) (thought : String) (reflection : String)
    (isConclusion : Bool) (now : String) : ThoughtStep :=
  ⟨stepId, jsTrim thought,
   if reflection = "" then none else some (jsTrim reflection),
   now, isConclusion,
   if stepId > 1 then [stepId - 1] else []⟩

/-- The per-chain invariant failures raised by models.js
`validateThoughtChain`. -/
inductive InvErr
  | badId
  | badCreated
  | stepBadId (i : Nat)
  | stepBadThought (i : Nat)
deriving DecidableEq, Repr

/-- The per-step loop of models.js `validateThoughtChain`.  The timestamp
and reflection checks of the source are type checks that cannot fail on the
typed model, so they do not appear. -/
def checkChainSteps : List ThoughtStep → Nat → Except InvErr Unit
  | [], _ => .ok ()
  | st :: rest, i =>
    if st.id == 0 then .error (.stepBadId i)
    else if st.thought == "" then .error (.stepBadThought i)
    else checkChainSteps rest (i + 1)

/-- models.js `validateThoughtChain`: JS truthiness of `id` and `created`
on strings is non-emptiness, and of a step id on numbers is being nonzero. -/
def validateThoughtChain (tc : ThoughtChain) : Except InvErr Unit :=
  if tc.id == "" then .error .badId
  else if tc.created == "" then .error .badCreated
  else checkChainSteps tc.steps 0

/-- A row of the `thought_chains` table. -/
structure ChainRow where
  id : String
  created : String
  updated : Option String
  concluded : Option String
  status : String
deriving DecidableEq, Repr

/-- A row of the `thought_steps` table; `is_conclusion` is stored as the
integer the source binds (1 or 0). -/
structure StepRow where
  chain_id : String
  step_number : Int
  thought : String
  reflection : Option String
  timestamp : String
  is_conclusion : Int
deriving DecidableEq, Repr

/-- The two tables held by the sql.js in-memory database. -/
structure MemDB where
  chains : List ChainRow
  steps : List StepRow
deriving DecidableEq, Repr

/-- A database handle of src/database.js `DatabaseManager`: the in-memory
image, the last image persisted by `saveToDisk` (none before any write),
whether `fs.writeFileSync` on the backing file succeeds, and a fault flag
under which every prepared-statement execution throws (modelling an
internal sql.js storage error, all-or-nothing). -/
structure DB where
  mem : MemDB
  disk : Option MemDB
  diskWritable : Bool
  fault : Bool
deriving DecidableEq, Repr

/-- The single storage-failure value thrown by the faulted handle. -/
inductive StorageError
  | fail
deriving DecidableEq, Repr

/-- Reading the `thought_chains` table; throws on a faulted handle. -/
def queryChains (db : DB) : Except StorageError (List ChainRow) :=
  if db.fault then .error .fail else .ok db.mem.chains

/-- Reading the steps of one chain (the WHERE clause of the steps query);
throws on a faulted handle. -/
def querySteps (db : DB) (cid : String) : Except StorageError (List StepRow) :=
  if db.fault then .error .fail
  else .ok (db.mem.steps.filter (fun r => r.chain_id == cid))

/-- Stable insertion into a list sorted by ascending step number. -/
def insertBySn (r : StepRow) : List StepRow → List StepRow
  | [] => [r]
  | x :: t => if r.step_number < x.step_number then r :: x :: t else x :: insertBySn r t

/-- The ORDER BY step_number clause of the step queries, as a stable sort. -/
def sortBySn : List StepRow → List StepRow
  | [] => []
  | x :: t => insertBySn x (sortBySn t)

/-- Stable insertion into a chain-row list sorted by descending creation
string (ISO-8601 strings compare consistently with their instants). -/
def insertByCreatedDesc (r : ChainRow) : List ChainRow → List ChainRow
  | [] => [r]
  | x :: t => if x.created < r.created then r :: x :: t else x :: insertByCreatedDesc r t

/-- The ORDER BY created DESC clause of the chain listing query. -/
def sortByCreatedDesc : List ChainRow → List ChainRow
  | [] => []
  | x :: t => insertByCreatedDesc x (sortByCreatedDesc t)

/-- The row-to-object mapping of database.js read paths: `builds_on` is
derived from the stored step number, and the stored conclusion flag is
compared against 1. -/
def rowToStep (r : StepRow) : ThoughtStep :=
  ⟨r.step_number, r.thought, r.reflection, r.timestamp,
   r.is_conclusion == 1,
   if r.step_number > 1 then [r.step_number - 1] else []⟩

/-- The chain-row-to-object mapping shared by the read paths. -/
def rowToChain (row : ChainRow) (srows : List StepRow) : ThoughtChain :=
  ⟨row.id, row.created, row.updated, row.concluded, row.status,
   (sortBySn srows).map rowToStep⟩

/-- The body of database.js `getThoughtChain`, before its catch clause. -/
def getThoughtChainEx (db : DB) (cid : String) : Except StorageError (Option ThoughtChain) :=
  match queryChains db with
  | .error e => .error e
  | .ok chains =>
    match chains.find? (fun r => r.id == cid) with
    | none => .ok none
    | some row =>
      if row.id == "" then .ok none
      else
        match querySteps db cid with
        | .error e => .error e
        | .ok srows => .ok (some (rowToChain row srows))

/-- database.js `getThoughtChain`: its catch clause turns any storage
error into the not-found sentinel. -/
def getThoughtChain (db : DB) (cid : String) : Option ThoughtChain :=
  match getThoughtChainEx db cid with
  | .error _ => none
  | .ok r => r

/-- The per-chain step fetch loop of database.js `loadSavedThoughts`. -/
def chainsWithSteps (db : DB) : List ChainRow → Except StorageError (List ThoughtChain)
  | [] => .ok []
  | row :: rest =>
    match querySteps db row.id with
    | .error e => .error e
    | .ok srows =>
      match chainsWithSteps db rest with
      | .error e => .error e
      | .ok others => .ok (rowToChain row srows :: others)

/-- The body of database.js `loadSavedThoughts`, before its catch clause. -/
def loadSavedThoughtsEx (db : DB) : Except StorageError (List ThoughtChain) :=
  match queryChains db with
  | .error e => .error e
  | .ok chains => chainsWithSteps db (sortByCreatedDesc chains)

/-- database.js `loadSavedThoughts`: its catch clause turns any storage
error into the empty listing. -/
def loadSavedThoughts (db : DB) : List ThoughtChain :=
  match loadSavedThoughtsEx db with
  | .error _ => []
  | .ok l => l

/-- Case-insensitive containment used by the search filter (JS lower-cases
both sides; ASCII case model). -/
def lcContains (hay : String) (needleLower : List Char) : Bool :=
  subStr needleLower (lowerList hay.toList)

/-- The search predicate of database.js `searchThoughtChains`: some step
whose thought, or truthy reflection, contains the lowered term. -/
def chainMatches (needleLower : List Char) (c : ThoughtChain) : Bool :=
  c.steps.any (fun st =>
    lcContains st.thought needleLower ||
    (match st.reflection with
     | some r => lcContains r needleLower
     | none => false))

/-- Stable insertion into a chain list sorted by descending creation
string, for the in-memory sort of the search results. -/
def insertTCByCreatedDesc (r : ThoughtChain) : List ThoughtChain → List ThoughtChain
  | [] => [r]
  | x :: t => if x.created < r.created then r :: x :: t else x :: insertTCByCreatedDesc r t

/-- The most-recent-first sort applied to the filtered search results. -/
def sortTCByCreatedDesc : List ThoughtChain → List ThoughtChain
  | [] => []
  | x :: t => insertTCByCreatedDesc x (sortTCByCreatedDesc t)

/-- database.js `searchThoughtChains`: an empty or whitespace-only term
degrades to the recent listing; otherwise substring-filter all chains,
sort most recent first and truncate.  Its own catch clause is unreachable
because every call it makes already catches. -/
def searchThoughtChains (db : DB) (term : String) (lim : Nat) : List ThoughtChain :=
  if term = "" ∨ jsTrim term = "" then (loadSavedThoughts db).take lim
  else
    let needle := lowerList term.toList
    let filtered := (loadSavedThoughts db).filter (chainMatches needle)
    (sortTCByCreatedDesc filtered).take lim

/-- database.js `saveToDisk`: exports the in-memory image to the backing
file; a write failure (or the in-memory path) is caught, logged and
swallowed, leaving the prior disk image in place. -/
def saveToDisk (db : DB) : DB :=
  if db.diskWritable then { db with disk := some db.mem } else db

/-- The failures observable from `saveThought`: a chain-invariant
rejection, or a prepared-statement execution error. -/
inductive SaveError
  | invalid (e : InvErr)
  | statement
deriving DecidableEq, Repr

/-- The INSERT OR REPLACE on the `thought_chains` table. -/
def replaceChainRow (rows : List ChainRow) (r : ChainRow) : List ChainRow :=
  r :: rows.filter (fun x => x.id != r.id)

/-- The chain-header row written by `saveThought`. -/
def chainRowOf (tc : ThoughtChain) : ChainRow :=
  ⟨tc.id, tc.created, tc.updated, tc.concluded, tc.status⟩

/-- The step row bound by the step INSERT of `saveThought`. -/
def stepRowOf (cid : String) (st : ThoughtStep) : StepRow :=
  ⟨cid, st.id, st.thought, st.reflection, st.timestamp,
   if st.is_conclusion then 1 else 0⟩

/-- database.js `saveThought`: validate, replace the header row, delete the
prior steps of the chain, insert the current steps, then `saveToDisk`.
Statement execution on a faulted handle throws (modelled all-or-nothing);
the rethrowing catch clause propagates validation and statement errors,
while a disk-write failure inside `saveToDisk` is already swallowed
there. -/
def saveThought (db : DB) (tc : ThoughtChain) : Except SaveError DB :=
  match validateThoughtChain tc with
  | .error e => .error (.invalid e)
  | .ok () =>
    if db.fault then .error .statement
    else
      let mem1 : MemDB :=
        ⟨replaceChainRow db.mem.chains (chainRowOf tc),
         db.mem.steps.filter (fun r => r.chain_id != tc.id) ++ tc.steps.map (stepRowOf tc.id)⟩
      .ok (saveToDisk { db with mem := mem1 })

/-- The failures observable from handlers.js `handleSequentialThink`. -/
inductive HandlerError
  | validation (e : VError)
  | stepThoughtRequired
  | concludeThoughtRequired
  | unknownAction (a : String)
  | save (e : SaveError)
deriving DecidableEq, Repr

deriving instance DecidableEq for Except

/-- What a caller of `handleSequentialThink` observes afterwards: the
thrown-or-returned outcome, the state of the current-chain object it passed
in (the source mutates it in place, so mutations made before a throw remain
visible), and the database state. -/
structure HandlerOutcome where
  result : Except HandlerError Unit
  chain : ThoughtChain
  db : DB
deriving DecidableEq, Repr

/-- handlers.js `handleSequentialThink`, with the clock reading and the
identifier generated for a new chain passed explicitly.  The response text
is a presentation concern and is collapsed to a unit success value. -/
def handleSequentialThink (args : ToolArgs) (cur : ThoughtChain) (db : DB)
    (now newId : String) : HandlerOutcome :=
  match validateToolArguments "thought_chain" args with
  | .error e => ⟨.error (.validation e), cur, db⟩
  | .ok () =>
    let thought := args.thought.getD ""
    let reflection := args.reflection.getD ""
    let a := args.action.getD ""
    if a = "new_chain" then
      match saveThought db (createThoughtChain newId now) with
      | .ok db1 => ⟨.ok (), cur, db1⟩
      | .error e => ⟨.error (.save e), cur, db⟩
    else if a = "add_step" then
      if jsTrim thought = "" then ⟨.error .stepThoughtRequired, cur, db⟩
      else
        let step := createThoughtStep (Int.ofNat (cur.steps.length + 1))
          (jsTrim thought) (jsTrim reflection) false now
        let cur1 := { cur with steps := cur.steps ++ [step], updated := some now }
        match saveThought db cur1 with
        | .ok db1 => ⟨.ok (), cur1, db1⟩
        | .error e => ⟨.error (.save e), cur1, db⟩
    else if a = "review_chain" then ⟨.ok (), cur, db⟩
    else if a = "conclude" then
      if jsTrim thought = "" then ⟨.error .concludeThoughtRequired, cur, db⟩
      else
        let step := createThoughtStep (Int.ofNat (cur.steps.length + 1))
          (jsTrim thought) (jsTrim reflection) true now
        let cur1 := { cur with
          steps := cur.steps ++ [step], status := "concluded", concluded := some now }
        match saveThought db cur1 with
        | .ok db1 => ⟨.ok (), cur1, db1⟩
        | .error e => ⟨.error (.save e), cur1, db⟩
    else ⟨.error (.unknownAction a), cur, db⟩

/-- The failures observable from handlers.js `handleLoadThoughtChain`. -/
inductive LoadError
  | validation (e : VError)
  | notFound
  | save (e : SaveError)
deriving DecidableEq, Repr

/-- handlers.js `handleLoadThoughtChain`: validate the identifier, fetch
the chain, force its status to active, persist it, and return it together
with the new database state (the caller then swaps it into the
current-chain slot). -/
def handleLoadThoughtChain (args : ToolArgs) (db : DB) :
    Except LoadError (ThoughtChain × DB) :=
  match validateToolArguments "load_thought_chain" args with
  | .error e => .error (.validation e)
  | .ok () =>
    let cid := args.chain_id.getD ""
    match getThoughtChain db cid with
    | none => .error .notFound
    | some chain =>
      let chain1 := { chain with status := "active" }
      match saveThought db chain1 with
      | .ok db1 => .ok (chain1, db1)
      | .error e => .error (.save e)

/-- Canonical step numbering from `k` onwards: ids count up one by one and
`builds_on` is derived exactly as `createThoughtStep` derives it. -/
def canonicalFrom (k : Int) : List ThoughtStep → Bool
  | [] => true
  | st :: rest =>
    st.id == k && st.builds_on == (if k > 1 then [k - 1] else []) &&
    canonicalFrom (k + 1) rest

/-- Driver iterating successful `add_step` calls of the state machine: each
pair is the thought text and the clock reading of one call; the first
failure aborts the run. -/
def runAddSteps : List (String × String) → ThoughtChain → DB →
    Except HandlerError (ThoughtChain × DB)
  | [], cur, db => .ok (cur, db)
  | (t, now) :: rest, cur, db =>
    let o := handleSequentialThink { action := some "add_step", thought := some t } cur db now ""
    match o.result with
    | .error e => .error e
    | .ok () => runAddSteps rest o.chain o.db

/-- A benign prose thought from the repository's own validation test suite
(the single-quote test case of test-validation-comprehensive.js). -/
def benignApostropheProse : String :=
  "I" ++ String.singleton quoteChar ++ "m thinking about the problem and it" ++
  String.singleton quoteChar ++ "s quite interesting"

/-- A thought containing both a markup fragment and an SQL-injection
shape. -/
def markupAndInjectionThought : String :=
  "<script " ++ String.singleton quoteChar ++ "; DROP TABLE x; --"

/-- A thought containing a quote followed by a NUL byte. -/
def quoteNulThought : String :=
  String.singleton quoteChar ++ String.singleton (Char.ofNat 0)

/-- A query containing a horizontal tab (byte 0x09). -/
def tabQuery : String := "a" ++ String.singleton (Char.ofNat 9) ++ "b"

/-- An SQL-injection payload from the repository's own test suite. -/
def injectionPayloadThought : String :=
  String.singleton quoteChar ++ "; DROP TABLE users; --"

/-- A thought containing a NUL byte after plain text. -/
def nulTailThought : String := "abc" ++ String.singleton (Char.ofNat 0)

/-- A fresh database handle over empty tables with a writable backing
file and no fault. -/
def emptyDB : DB := ⟨⟨[], []⟩, none, true, false⟩

/-- A valid chain whose single step is numbered 2 with an empty
`builds_on`, exercising the derived-at-read-time linkage. -/
def putGetCxChain : ThoughtChain :=
  ⟨"c", "t", none, none, "active", [⟨2, "x", none, "ts", false, []⟩]⟩

/-- The database state after saving `putGetCxChain` into `emptyDB`. -/
def putGetCxSaved : DB :=
  match saveThought emptyDB putGetCxChain with
  | .ok d => d
  | .error _ => emptyDB

/-- A canonical two-step chain for the round-trip witness. -/
def roundtripChain : ThoughtChain :=
  ⟨"rt", "t0", some "t2", none, "active",
   [⟨1, "one", none, "t1", false, []⟩, ⟨2, "two", some "r", "t2", false, [1]⟩]⟩

/-- An empty valid chain. -/
def emptyChain : ThoughtChain := ⟨"c", "t", none, none, "active", []⟩

/-- A chain that fails the invariant checker (empty identifier). -/
def badIdChain : ThoughtChain := ⟨"", "t", none, none, "active", []⟩

/-- A handle whose backing file is not writable, with a recorded prior
disk image. -/
def unwritableDB : DB := ⟨⟨[], []⟩, some ⟨[], []⟩, false, false⟩

/-- The database state after saving `emptyChain` into `unwritableDB`. -/
def unwritableSaved : DB :=
  match saveThought unwritableDB emptyChain with
  | .ok d => d
  | .error _ => unwritableDB

/-- A handle whose statement execution faults. -/
def faultedDB : DB := ⟨⟨[], []⟩, none, true, true⟩

/-- A faulted handle whose tables do contain a chain. -/
def faultedPopulatedDB : DB :=
  ⟨⟨[⟨"abc", "2024", none, none, "active"⟩], []⟩, none, true, true⟩

/-- The inputs of the two-step driver run used as the step-numbering
witness. -/
def addStepRunInputs : List (String × String) := [("one", "t1"), ("two", "t2")]

/-- The final state of the two-step driver run. -/
def addStepRunRes : ThoughtChain × DB :=
  match runAddSteps addStepRunInputs emptyChain emptyDB with
  | .ok r => r
  | .error _ => (emptyChain, emptyDB)

/-- Arguments carrying an action name outside the action enum. -/
def bogusActionArgs : ToolArgs := { action := some "bogus", thought := some "hi" }

/-- Arguments for an `add_step` with a plain thought. -/
def plainAddStepArgs : ToolArgs := { action := some "add_step", thought := some "hi" }

/-- A store holding one concluded chain with one conclusion step. -/
def concludedDB : DB :=
  ⟨⟨[⟨"abc", "2024-01", some "2024-01b", some "2024-02", "concluded"⟩],
    [⟨"abc", 1, "th", none, "ts", 1⟩]⟩, none, true, false⟩

/-- The concluded chain as reconstructed by `getThoughtChain` from
`concludedDB`. -/
def concludedChain : ThoughtChain :=
  ⟨"abc", "2024-01", some "2024-01b", some "2024-02", "concluded",
   [⟨1, "th", none, "ts", true, []⟩]⟩

/-- The concluded chain with its status forced back to active. -/
def reactivatedChain : ThoughtChain := { concludedChain with status := "active" }

/-- Arguments selecting the concluded chain by identifier. -/
def loadAbcArgs : ToolArgs := { chain_id := some "abc" }

/-- The pair returned by `handleLoadThoughtChain` on `concludedDB`. -/
def loadAbcRes : ThoughtChain × DB :=
  match handleLoadThoughtChain loadAbcArgs concludedDB with
  | .ok r => r
  | .error _ => (concludedChain, concludedDB)

theorem subStr_cons_ne_nil (c : Char) (p l : List Char) (h : subStr (c :: p) l = true) :
    l ≠ [] := by
  intro hl
  subst hl
  simp [subStr, List.isEmpty] at h

theorem any_ne_nil {p : Char → Bool} {l : List Char} (h : l.any p = true) : l ≠ [] := by
  intro hl
  subst hl
  simp at h

theorem toList_ne_nil_of_ne {s : String} (h : s.toList ≠ []) : s ≠ "" := by
  intro hs
  subst hs
  exact h rfl

/-- Claim C1: the repository's own test fixture of ordinary prose with two
apostrophes, which the specification and the test suites require the filter
to accept, is rejected by `validateToolArguments` with the
dangerous-patterns error, because the injection regex class fires on any
bare quote character. -/
theorem benign_prose_rejected_by_injection_filter :
    validateToolArguments "thought_chain"
      { action := some "add_step", thought := some benignApostropheProse } =
      .error .dangerousPatterns := by decide

/-- Counterexample to claim C2 as stated: a thought containing both the
markup fragment and a quote-adjacent DROP TABLE payload with comment
markers fails with the dangerous-content error of the markup filter, which
runs first, not with the pattern-rejection error. -/
theorem injection_marker_not_always_pattern_error :
    subStr "--".toList markupAndInjectionThought.toList = true ∧
    validateToolArguments "thought_chain"
      { action := some "add_step", thought := some markupAndInjectionThought } =
      .error .dangerousContent ∧
    validateToolArguments "thought_chain"
      { action := some "add_step", thought := some markupAndInjectionThought } ≠
      .error .dangerousPatterns := by decide

/-- Counterexample to claim C3 as stated: a thought holding a quote and a
NUL byte contains a byte in 0x00 to 0x1F, yet fails with the
dangerous-patterns error of the injection filter, which runs before the
control-character filter. -/
theorem control_byte_not_always_character_error :
    controlTest quoteNulThought.toList = true ∧
    validateToolArguments "thought_chain"
      { action := some "conclude", thought := some quoteNulThought } =
      .error .dangerousPatterns ∧
    validateToolArguments "thought_chain"
      { action := some "conclude", thought := some quoteNulThought } ≠
      .error .invalidCharacters := by decide

/-- Counterexample to claim C4 as stated: a query containing a horizontal
tab (byte 0x09) passes `validateToolArguments` for `recall_thoughts`, so
the query filter does not cover the same byte ranges as the
thought-content filter. -/
theorem tab_query_accepted :
    tabQuery.toList.contains (Char.ofNat 9) = true ∧
    controlTest tabQuery.toList = true ∧
    validateToolArguments "recall_thoughts" { query := some tabQuery } = .ok () := by decide

/-- Counterexample to claim C6 as stated: a valid chain whose single step
is numbered 2 with an empty `builds_on` is saved and retrieved, but the
retrieved chain differs because `builds_on` is recomputed from the stored
step number. -/
theorem put_get_changes_noncanonical_links :
    saveThought emptyDB putGetCxChain = .ok putGetCxSaved ∧
    getThoughtChain putGetCxSaved "c" ≠ some putGetCxChain ∧
    getThoughtChain putGetCxSaved "c" =
      some ⟨"c", "t", none, none, "active", [⟨2, "x", none, "ts", false, [1]⟩]⟩ := by decide

/-- Counterexample to claim C7 as stated: with an unwritable backing file
the save reports success while the durable image is left at its prior
contents, which differ from the replaced in-memory image, so the caller
does not observe a failure although the durable state was not replaced. -/
theorem disk_write_failure_swallowed :
    saveThought unwritableDB emptyChain = .ok unwritableSaved ∧
    unwritableSaved.disk = some ⟨[], []⟩ ∧
    unwritableSaved.mem ≠ ⟨[], []⟩ := by decide

/-- Counterexample to claim C8 as stated: when persistence fails during an
`add_step`, the handler reports the failure but the current chain has
already been mutated: the new step remains appended and `updated` remains
stamped. -/
theorem save_failure_leaves_appended_step :
    (handleSequentialThink plainAddStepArgs emptyChain faultedDB "now" "nid").result =
      .error (.save .statement) ∧
    (handleSequentialThink plainAddStepArgs emptyChain faultedDB "now" "nid").chain ≠
      emptyChain ∧
    (handleSequentialThink plainAddStepArgs emptyChain faultedDB "now" "nid").chain.steps =
      emptyChain.steps ++ [⟨1, "hi", none, "now", false, []⟩] := by decide

theorem subStr_ne_nil {pat l : List Char} (h : subStr pat l = true) (hp : pat ≠ []) :
    l ≠ [] := by
  intro hl
  subst hl
  cases pat with
  | nil => exact hp rfl
  | cons c t => simp [subStr, List.isEmpty] at h

theorem injClass_sub (s : List Char)
    (h : (s.any (fun c => c == quoteChar || c == dquoteChar || c == ';') ||
          subStr "--".toList s || subStr "/*".toList s || subStr "*/".toList s) = true) :
    injectionTest s = true := by
  unfold injectionTest
  simp only [Bool.or_eq_true] at h ⊢
  rcases h with ((h | h) | h) | h
  · refine Or.inl (Or.inl (Or.inl ?_))
    obtain ⟨c, hc, hpc⟩ := List.any_eq_true.mp h
    refine List.any_eq_true.mpr ⟨c, hc, ?_⟩
    simp only [isInjChar, Bool.or_eq_true]
    simp only [Bool.or_eq_true] at hpc
    tauto
  · exact Or.inl (Or.inl (Or.inr h))
  · exact Or.inl (Or.inr h)
  · exact Or.inr h

theorem falsyStr_false_of_ne {s : String} (hne : s ≠ "") : falsyStr (some s) = false := by
  unfold falsyStr
  exact beq_eq_false_iff_ne.mpr hne

theorem checkThought_injection (s : String) (hne : s ≠ "")
    (hinj : injectionTest s.toList = true) :
    (∃ e, checkThought (some s) = .error e) ∧
    (s.length ≤ 10000 → dangerousTest s.toList = false →
      checkThought (some s) = .error .dangerousPatterns) := by
  unfold checkThought
  rw [falsyStr_false_of_ne hne]
  simp only [Bool.false_eq_true, if_false, Option.getD_some]
  by_cases hlen : s.length > 10000
  · rw [if_pos hlen]
    exact ⟨⟨_, rfl⟩, fun h _ => absurd hlen (by omega)⟩
  · rw [if_neg hlen]
    by_cases hd : dangerousTest s.toList = true
    · rw [if_pos hd]
      exact ⟨⟨_, rfl⟩, fun _ hd2 => by rw [hd2] at hd; cases hd⟩
    · rw [if_neg hd, if_pos hinj]
      exact ⟨⟨_, rfl⟩, fun _ _ => rfl⟩

theorem checkThought_control (s : String) (hne : s ≠ "")
    (hctl : controlTest s.toList = true) :
    (∃ e, checkThought (some s) = .error e) ∧
    (s.length ≤ 10000 → dangerousTest s.toList = false → injectionTest s.toList = false →
      checkThought (some s) = .error .invalidCharacters) := by
  unfold checkThought
  rw [falsyStr_false_of_ne hne]
  simp only [Bool.false_eq_true, if_false, Option.getD_some]
  by_cases hlen : s.length > 10000
  · rw [if_pos hlen]
    exact ⟨⟨_, rfl⟩, fun h _ _ => absurd hlen (by omega)⟩
  · rw [if_neg hlen]
    by_cases hd : dangerousTest s.toList = true
    · rw [if_pos hd]
      exact ⟨⟨_, rfl⟩, fun _ hd2 _ => by rw [hd2] at hd; cases hd⟩
    · rw [if_neg hd]
      by_cases hi : injectionTest s.toList = true
      · rw [if_pos hi]
        exact ⟨⟨_, rfl⟩, fun _ _ hi2 => by rw [hi2] at hi; cases hi⟩
      · rw [if_neg hi, if_pos hctl]
        exact ⟨⟨_, rfl⟩, fun _ _ _ => rfl⟩

theorem vtca_thought_error (a : String) (th r? : Option String) (e : VError)
    (ha : a = "add_step" ∨ a = "conclude")
    (hct : checkThought th = .error e) :
    validateToolArguments "thought_chain"
      { action := some a, thought := th, reflection := r? } = .error e := by
  rcases ha with h | h <;> subst h <;>
    simp [validateToolArguments, validateThoughtChainArgs, falsyStr, hct]

/-- Claim C2 (amended): any thought containing a quote, double quote or
semicolon — in particular one immediately adjacent to a structural SQL
keyword — or an SQL comment marker fails `validateToolArguments` for the
`add_step` and `conclude` actions; the failure is the pattern-rejection
error provided the thought is within the length bound and does not match
the markup filter, which the source checks first. -/
theorem injection_class_thought_rejected (a s : String) (r? : Option String)
    (ha : a = "add_step" ∨ a = "conclude")
    (hmark : (s.toList.any (fun c => c == quoteChar || c == dquoteChar || c == ';') ||
              subStr "--".toList s.toList || subStr "/*".toList s.toList ||
              subStr "*/".toList s.toList) = true) :
    (∃ e, validateToolArguments "thought_chain"
        { action := some a, thought := some s, reflection := r? } = .error e) ∧
    (s.length ≤ 10000 → dangerousTest s.toList = false →
      validateToolArguments "thought_chain"
        { action := some a, thought := some s, reflection := r? } =
        .error .dangerousPatterns) := by
  have hinj : injectionTest s.toList = true := injClass_sub s.toList hmark
  have hne : s ≠ "" := by
    refine toList_ne_nil_of_ne ?_
    simp only [Bool.or_eq_true] at hmark
    rcases hmark with ((h | h) | h) | h
    · exact any_ne_nil h
    · exact subStr_ne_nil h (by decide)
    · exact subStr_ne_nil h (by decide)
    · exact subStr_ne_nil h (by decide)
  obtain ⟨⟨e, he⟩, href⟩ := checkThought_injection s hne hinj
  exact ⟨⟨e, vtca_thought_error a (some s) r? e ha he⟩,
         fun hl hd => vtca_thought_error a (some s) r? _ ha (href hl hd)⟩

/-- Witness for the amended claim C2 at an SQL-injection payload from the
repository's test suite. -/
theorem injection_class_thought_rejected_w :
    validateToolArguments "thought_chain"
      { action := some "add_step", thought := some injectionPayloadThought } =
      .error .dangerousPatterns :=
  (injection_class_thought_rejected "add_step" injectionPayloadThought none
    (Or.inl rfl) (by decide)).2 (by decide) (by decide)

/-- Claim C3 (amended): any thought containing a byte in 0x00 to 0x1F or
the byte 0x7F fails `validateToolArguments` for the `add_step` and
`conclude` actions; the failure is the character-rejection error provided
the thought is within the length bound and matches neither the markup
filter nor the injection filter, both of which the source checks first. -/
theorem control_class_thought_rejected (a s : String) (r? : Option String)
    (ha : a = "add_step" ∨ a = "conclude")
    (hctl : controlTest s.toList = true) :
    (∃ e, validateToolArguments "thought_chain"
        { action := some a, thought := some s, reflection := r? } = .error e) ∧
    (s.length ≤ 10000 → dangerousTest s.toList = false → injectionTest s.toList = false →
      validateToolArguments "thought_chain"
        { action := some a, thought := some s, reflection := r? } =
        .error .invalidCharacters) := by
  have hne : s ≠ "" := toList_ne_nil_of_ne (any_ne_nil hctl)
  obtain ⟨⟨e, he⟩, href⟩ := checkThought_control s hne hctl
  exact ⟨⟨e, vtca_thought_error a (some s) r? e ha he⟩,
         fun hl hd hi => vtca_thought_error a (some s) r? _ ha (href hl hd hi)⟩

/-- Witness for the amended claim C3 at a thought ending in a NUL byte. -/
theorem control_class_thought_rejected_w :
    validateToolArguments "thought_chain"
      { action := some "conclude", thought := some nulTailThought } =
      .error .invalidCharacters :=
  (control_class_thought_rejected "conclude" nulTailThought none
    (Or.inr rfl) (by decide)).2 (by decide) (by decide) (by decide)

theorem checkQuery_control (q : String) (h : queryControlTest q.toList = true) :
    (∃ e, checkQuery q = .error e) ∧
    (q.length ≤ 1000 → checkQuery q = .error .queryInvalidChars) := by
  unfold checkQuery
  by_cases hlen : q.length > 1000
  · rw [if_pos hlen]
    exact ⟨⟨_, rfl⟩, fun hl => absurd hlen (by omega)⟩
  · rw [if_neg hlen]
    by_cases hs : searchPatternsTest q.toList = true
    · rw [if_pos hs]
      exact ⟨⟨_, rfl⟩, fun _ => rfl⟩
    · rw [if_neg hs, if_pos h]
      exact ⟨⟨_, rfl⟩, fun _ => rfl⟩

theorem recall_query_error (q : String) (lim : Option Int) (e : VError)
    (hne : q ≠ "") (h : checkQuery q = .error e) :
    validateToolArguments "recall_thoughts" { query := some q, limit := lim } = .error e := by
  simp [validateToolArguments, validateRecallArgs, falsyStr, hne, h]

/-- Claim C4 (amended): the recall-query filter rejects any query
containing a byte in 0x00 to 0x08, 0x0B, 0x0C, 0x0E to 0x1F, or 0x7F —
the ranges of its own character class, which, unlike the thought-content
class, excludes tab (0x09), line feed (0x0A) and carriage return (0x0D);
within the length bound the failure carries the invalid-characters
message. -/
theorem query_control_class_rejected (q : String) (lim : Option Int)
    (h : queryControlTest q.toList = true) :
    (∃ e, validateToolArguments "recall_thoughts"
        { query := some q, limit := lim } = .error e) ∧
    (q.length ≤ 1000 →
      validateToolArguments "recall_thoughts" { query := some q, limit := lim } =
        .error .queryInvalidChars) := by
  have hne : q ≠ "" := toList_ne_nil_of_ne (any_ne_nil h)
  obtain ⟨⟨e, he⟩, href⟩ := checkQuery_control q h
  exact ⟨⟨e, recall_query_error q lim e hne he⟩,
         fun hl => recall_query_error q lim _ hne (href hl)⟩

/-- Witness for the amended claim C4 at a query consisting of one NUL
byte. -/
theorem query_control_class_rejected_w :
    validateToolArguments "recall_thoughts"
      { query := some (String.singleton (Char.ofNat 0)) } = .error .queryInvalidChars :=
  (query_control_class_rejected (String.singleton (Char.ofNat 0)) none
    (by decide)).2 (by decide)

/-- Claim C10: on a faulted storage handle, `getThoughtChain` returns the
not-found sentinel and `searchThoughtChains` returns the empty result list
instead of raising, for every chain identifier, search term and limit. -/
theorem storage_fault_reads_degrade (db : DB) (cid q : String) (lim : Nat)
    (h : db.fault = true) :
    getThoughtChain db cid = none ∧ searchThoughtChains db q lim = [] := by
  have hq : queryChains db = .error .fail := by
    simp [queryChains, h]
  have hload : loadSavedThoughts db = [] := by
    simp [loadSavedThoughts, loadSavedThoughtsEx, hq]
  constructor
  · simp [getThoughtChain, getThoughtChainEx, hq]
  · unfold searchThoughtChains
    rw [hload]
    split
    · simp
    · simp [sortTCByCreatedDesc]

/-- Witness for claim C10 on a faulted handle whose tables hold a chain. -/
theorem storage_fault_reads_degrade_w :
    getThoughtChain faultedPopulatedDB "abc" = none ∧
    searchThoughtChains faultedPopulatedDB "abc" 5 = [] :=
  storage_fault_reads_degrade faultedPopulatedDB "abc" "abc" 5 (by decide)

theorem saveToDisk_mem (db : DB) : (saveToDisk db).mem = db.mem := by
  unfold saveToDisk
  split <;> rfl

theorem saveToDisk_fault (db : DB) : (saveToDisk db).fault = db.fault := by
  unfold saveToDisk
  split <;> rfl

theorem saveToDisk_disk_of_unwritable (db : DB) (h : db.diskWritable = false) :
    (saveToDisk db).disk = db.disk := by
  unfold saveToDisk
  rw [h]
  simp

/-- Claim C7 (amended): `saveThought` propagates chain-invariant failures
and statement-execution failures to the caller, but a failure writing the
backing file is caught and logged inside `saveToDisk` and not propagated:
in that case the save reports success while the durable disk image is left
unchanged. -/
theorem saveThought_error_propagation (db : DB) (tc : ThoughtChain) :
    (∀ e, validateThoughtChain tc = .error e → saveThought db tc = .error (.invalid e)) ∧
    (validateThoughtChain tc = .ok () → db.fault = true →
      saveThought db tc = .error .statement) ∧
    (∀ db1, saveThought db tc = .ok db1 → db.diskWritable = false →
      db1.disk = db.disk) := by
  refine ⟨?_, ?_, ?_⟩
  · intro e he
    simp [saveThought, he]
  · intro hv hf
    simp [saveThought, hv, hf]
  · intro db1 hok hw
    unfold saveThought at hok
    cases hv : validateThoughtChain tc with
    | error e => rw [hv] at hok; cases hok
    | ok u =>
      cases u
      rw [hv] at hok
      by_cases hf : db.fault = true
      · rw [if_pos hf] at hok; cases hok
      · rw [if_neg hf] at hok
        simp only [Except.ok.injEq] at hok
        subst hok
        exact saveToDisk_disk_of_unwritable _ hw

/-- Witness for the amended claim C7: an invalid chain's rejection is
propagated unchanged by `saveThought`. -/
theorem saveThought_error_propagation_w :
    validateThoughtChain badIdChain = .error .badId ∧
    saveThought emptyDB badIdChain = .error (.invalid .badId) :=
  ⟨by decide, (saveThought_error_propagation emptyDB badIdChain).1 .badId (by decide)⟩

/-- Claim C9: when the requested identifier resolves in the store,
`handleLoadThoughtChain` returns and persists the fetched chain with its
status forced to active and every other field untouched — in particular
the concluded timestamp is not cleared, and the identifier, creation and
update timestamps and the step sequence are unchanged. -/
theorem load_forces_active_only (db : DB) (args : ToolArgs) (c c1 : ThoughtChain) (db1 : DB)
    (hget : getThoughtChain db (args.chain_id.getD "") = some c)
    (hrun : handleLoadThoughtChain args db = .ok (c1, db1)) :
    c1.status = "active" ∧ c1.id = c.id ∧ c1.created = c.created ∧
    c1.updated = c.updated ∧ c1.concluded = c.concluded ∧ c1.steps = c.steps ∧
    saveThought db { c with status := "active" } = .ok db1 := by
  unfold handleLoadThoughtChain at hrun
  cases hval : validateToolArguments "load_thought_chain" args with
  | error e => rw [hval] at hrun; cases hrun
  | ok u =>
    cases u
    rw [hval] at hrun
    dsimp only at hrun
    rw [hget] at hrun
    dsimp only at hrun
    cases hsave : saveThought db { c with status := "active" } with
    | error e => rw [hsave] at hrun; cases hrun
    | ok d =>
      rw [hsave] at hrun
      simp only [Except.ok.injEq, Prod.mk.injEq] at hrun
      obtain ⟨hc1, hdb1⟩ := hrun
      subst hc1
      subst hdb1
      exact ⟨rfl, rfl, rfl, rfl, rfl, rfl, rfl⟩

/-- Witness for claim C9 on a store holding one concluded chain: loading
it forces the status to active while the concluded timestamp persists. -/
theorem load_forces_active_only_w :
    reactivatedChain.status = "active" ∧
    reactivatedChain.id = concludedChain.id ∧
    reactivatedChain.created = concludedChain.created ∧
    reactivatedChain.updated = concludedChain.updated ∧
    reactivatedChain.concluded = concludedChain.concluded ∧
    reactivatedChain.steps = concludedChain.steps ∧
    saveThought concludedDB { concludedChain with status := "active" } = .ok loadAbcRes.2 :=
  load_forces_active_only concludedDB loadAbcArgs concludedChain reactivatedChain
    loadAbcRes.2 (by decide) (by decide)

/-- Claim C8 (amended): argument-validation failures, missing-thought
failures and unknown actions leave both the current chain and the database
unchanged; but when persistence fails on `add_step` or `conclude`, the step
has already been appended to the current chain before the save and remains
there (only a `new_chain` save failure leaves the current chain
unchanged). -/
theorem handler_failure_isolation (args : ToolArgs) (cur : ThoughtChain) (db : DB)
    (now nid : String) :
    (∀ e, (handleSequentialThink args cur db now nid).result = .error (.validation e) →
      (handleSequentialThink args cur db now nid).chain = cur ∧
      (handleSequentialThink args cur db now nid).db = db) ∧
    ((handleSequentialThink args cur db now nid).result = .error .stepThoughtRequired →
      (handleSequentialThink args cur db now nid).chain = cur ∧
      (handleSequentialThink args cur db now nid).db = db) ∧
    ((handleSequentialThink args cur db now nid).result = .error .concludeThoughtRequired →
      (handleSequentialThink args cur db now nid).chain = cur ∧
      (handleSequentialThink args cur db now nid).db = db) ∧
    (∀ a, (handleSequentialThink args cur db now nid).result = .error (.unknownAction a) →
      (handleSequentialThink args cur db now nid).chain = cur ∧
      (handleSequentialThink args cur db now nid).db = db) ∧
    (∀ e, (handleSequentialThink args cur db now nid).result = .error (.save e) →
      (handleSequentialThink args cur db now nid).db = db ∧
      (args.action.getD "" = "new_chain" →
        (handleSequentialThink args cur db now nid).chain = cur) ∧
      ((args.action.getD "" = "add_step" ∨ args.action.getD "" = "conclude") →
        ∃ st, (handleSequentialThink args cur db now nid).chain.steps =
          cur.steps ++ [st])) := by
  unfold handleSequentialThink
  cases hval : validateToolArguments "thought_chain" args with
  | error e0 =>
    refine ⟨?_, ?_, ?_, ?_, ?_⟩ <;> intros <;> simp_all
  | ok u =>
    cases u
    dsimp only
    by_cases h1 : args.action.getD "" = "new_chain"
    · rw [if_pos h1]
      cases hs : saveThought db (createThoughtChain nid now) with
      | ok d => refine ⟨?_, ?_, ?_, ?_, ?_⟩ <;> intros <;> simp_all
      | error e =>
        refine ⟨?_, ?_, ?_, ?_, ?_⟩ <;> intros <;> simp_all
    · rw [if_neg h1]
      by_cases h2 : args.action.getD "" = "add_step"
      · rw [if_pos h2]
        by_cases ht : jsTrim (args.thought.getD "") = ""
        · rw [if_pos ht]
          refine ⟨?_, ?_, ?_, ?_, ?_⟩ <;> intros <;> simp_all
        · rw [if_neg ht]
          cases hs : saveThought db
              { cur with
                steps := cur.steps ++ [createThoughtStep (Int.ofNat (cur.steps.length + 1))
                  (jsTrim (args.thought.getD "")) (jsTrim (args.reflection.getD "")) false now],
                updated := some now } with
          | ok d => refine ⟨?_, ?_, ?_, ?_, ?_⟩ <;> intros <;> simp_all
          | error e =>
            refine ⟨?_, ?_, ?_, ?_, ?_⟩ <;> intros <;> simp_all
      · rw [if_neg h2]
        by_cases h3 : args.action.getD "" = "review_chain"
        · rw [if_pos h3]
          refine ⟨?_, ?_, ?_, ?_, ?_⟩ <;> intros <;> simp_all
        · rw [if_neg h3]
          by_cases h4 : args.action.getD "" = "conclude"
          · rw [if_pos h4]
            by_cases ht : jsTrim (args.thought.getD "") = ""
            · rw [if_pos ht]
              refine ⟨?_, ?_, ?_, ?_, ?_⟩ <;> intros <;> simp_all
            · rw [if_neg ht]
              cases hs : saveThought db
                  { cur with
                    steps := cur.steps ++ [createThoughtStep (Int.ofNat (cur.steps.length + 1))
                      (jsTrim (args.thought.getD "")) (jsTrim (args.reflection.getD "")) true now],
                    status := "concluded", concluded := some now } with
              | ok d => refine ⟨?_, ?_, ?_, ?_, ?_⟩ <;> intros <;> simp_all
              | error e =>
                refine ⟨?_, ?_, ?_, ?_, ?_⟩ <;> intros <;> simp_all
          · rw [if_neg h4]
            refine ⟨?_, ?_, ?_, ?_, ?_⟩ <;> intros <;> simp_all

/-- Witness for the amended claim C8: an unknown action name is rejected
by validation and leaves chain and database untouched. -/
theorem handler_failure_isolation_w :
    (handleSequentialThink bogusActionArgs emptyChain emptyDB "now" "nid").chain = emptyChain ∧
    (handleSequentialThink bogusActionArgs emptyChain emptyDB "now" "nid").db = emptyDB :=
  (handler_failure_isolation bogusActionArgs emptyChain emptyDB "now" "nid").1
    (.invalidAction "bogus") (by decide)

theorem addStep_ok_chain (t : String) (cur : ThoughtChain) (db : DB) (now nid : String)
    (h : (handleSequentialThink { action := some "add_step", thought := some t }
            cur db now nid).result = .ok ()) :
    (handleSequentialThink { action := some "add_step", thought := some t }
        cur db now nid).chain =
      { cur with
        steps := cur.steps ++ [createThoughtStep (Int.ofNat (cur.steps.length + 1))
          (jsTrim t) (jsTrim "") false now],
        updated := some now } := by
  unfold handleSequentialThink at h ⊢
  cases hval : validateToolArguments "thought_chain"
      { action := some "add_step", thought := some t } with
  | error e => rw [hval] at h; cases h
  | ok u =>
    cases u
    rw [hval] at h
    dsimp only [Option.getD_some, Option.getD_none] at h ⊢
    rw [if_neg (by decide), if_pos rfl] at h ⊢
    by_cases ht : jsTrim t = ""
    · rw [if_pos ht] at h; cases h
    · rw [if_neg ht] at h ⊢
      cases hs : saveThought db
          { cur with
            steps := cur.steps ++ [createThoughtStep (Int.ofNat (cur.steps.length + 1))
              (jsTrim t) (jsTrim "") false now],
            updated := some now } with
      | ok d => rfl
      | error e => rfl

theorem canonicalFrom_append (l : List ThoughtStep) (k : Int) (st : ThoughtStep)
    (hc : canonicalFrom k l = true)
    (hid : st.id = k + l.length)
    (hb : st.builds_on = (if st.id > 1 then [st.id - 1] else [])) :
    canonicalFrom k (l ++ [st]) = true := by
  induction l generalizing k with
  | nil =>
    have hid0 : st.id = k := by simpa using hid
    simp only [List.nil_append, canonicalFrom, Bool.and_eq_true, beq_iff_eq]
    refine ⟨⟨hid0, ?_⟩, trivial⟩
    rw [hb, hid0]
  | cons s0 rest ih =>
    simp only [canonicalFrom, Bool.and_eq_true, beq_iff_eq] at hc
    obtain ⟨⟨hsid, hsb⟩, hrest⟩ := hc
    simp only [List.cons_append, canonicalFrom, Bool.and_eq_true, beq_iff_eq]
    refine ⟨⟨hsid, hsb⟩, ?_⟩
    refine ih (k + 1) hrest ?_
    rw [hid]
    simp only [List.length_cons]
    push_cast
    ring

theorem runAddSteps_canonical (inputs : List (String × String)) :
    ∀ (cur : ThoughtChain) (db : DB) (res : ThoughtChain × DB),
      canonicalFrom 1 cur.steps = true →
      runAddSteps inputs cur db = .ok res →
      canonicalFrom 1 res.1.steps = true ∧
      res.1.steps.length = cur.steps.length + inputs.length := by
  induction inputs with
  | nil =>
    intro cur db res hc hrun
    unfold runAddSteps at hrun
    simp only [Except.ok.injEq] at hrun
    subst hrun
    exact ⟨hc, by simp⟩
  | cons p rest ih =>
    obtain ⟨t, now⟩ := p
    intro cur db res hc hrun
    unfold runAddSteps at hrun
    dsimp only at hrun
    cases ho : (handleSequentialThink { action := some "add_step", thought := some t }
        cur db now "").result with
    | error e => rw [ho] at hrun; cases hrun
    | ok u =>
      cases u
      rw [ho] at hrun
      have hchain := addStep_ok_chain t cur db now "" ho
      have hc1 : canonicalFrom 1
          (handleSequentialThink { action := some "add_step", thought := some t }
            cur db now "").chain.steps = true := by
        rw [hchain]
        refine canonicalFrom_append cur.steps 1 _ hc ?_ rfl
        simp [createThoughtStep]
        ring
      have hlen1 : (handleSequentialThink { action := some "add_step", thought := some t }
          cur db now "").chain.steps.length = cur.steps.length + 1 := by
        rw [hchain]
        simp
      obtain ⟨hcr, hlr⟩ := ih _ _ res hc1 hrun
      refine ⟨hcr, ?_⟩
      rw [hlr, hlen1]
      simp only [List.length_cons]
      omega

/-- Claim C5: starting from a chain with zero steps, after N successful
sequential `add_step` calls through `handleSequentialThink` the current
chain holds exactly N steps numbered canonically from 1 — ids 1..N in
order with no gaps, `builds_on = [i-1]` for step i > 1 and `[]` for
step 1. -/
theorem sequential_add_steps_numbering (inputs : List (String × String))
    (cur : ThoughtChain) (db : DB) (res : ThoughtChain × DB)
    (hempty : cur.steps = [])
    (hrun : runAddSteps inputs cur db = .ok res) :
    res.1.steps.length = inputs.length ∧ canonicalFrom 1 res.1.steps = true := by
  have h := runAddSteps_canonical inputs cur db res (by rw [hempty]; rfl) hrun
  refine ⟨?_, h.1⟩
  rw [h.2, hempty]
  simp

/-- Witness for claim C5: a concrete two-step run produces two canonically
numbered steps. -/
theorem sequential_add_steps_numbering_w :
    addStepRunRes.1.steps.length = addStepRunInputs.length ∧
    canonicalFrom 1 addStepRunRes.1.steps = true :=
  sequential_add_steps_numbering addStepRunInputs emptyChain emptyDB addStepRunRes
    (by decide) (by decide)

theorem filter_neq_then_eq (l : List StepRow) (cid : String) :
    (l.filter (fun r => r.chain_id != cid)).filter (fun r => r.chain_id == cid) = [] := by
  induction l with
  | nil => rfl
  | cons r t ih =>
    by_cases h : r.chain_id == cid
    · simp only [List.filter_cons, bne, h, Bool.not_true, Bool.false_eq_true, if_false]
      exact ih
    · simp only [List.filter_cons, bne]
      rw [Bool.not_eq_true] at h
      rw [h]
      simp only [Bool.not_false, if_pos trivial, List.filter_cons, h, Bool.false_eq_true,
        if_false]
      exact ih

theorem filter_eq_map_stepRowOf (steps : List ThoughtStep) (cid : String) :
    (steps.map (stepRowOf cid)).filter (fun r => r.chain_id == cid) =
      steps.map (stepRowOf cid) := by
  induction steps with
  | nil => rfl
  | cons st t ih =>
    simp only [List.map_cons, List.filter_cons]
    have : (stepRowOf cid st).chain_id == cid := by
      simp [stepRowOf]
    rw [this]
    simp only [if_pos trivial]
    rw [ih]

theorem insertBySn_front (r : StepRow) (l : List StepRow)
    (h : ∀ y ∈ l, r.step_number < y.step_number) :
    insertBySn r l = r :: l := by
  cases l with
  | nil => rfl
  | cons x t =>
    unfold insertBySn
    rw [if_pos (h x (by simp))]

theorem canonicalFrom_map_lb (l : List ThoughtStep) :
    ∀ (k : Int) (cid : String), canonicalFrom k l = true →
      ∀ r ∈ l.map (stepRowOf cid), k ≤ r.step_number := by
  induction l with
  | nil => intro k cid _ r hr; cases hr
  | cons st t ih =>
    intro k cid hc r hr
    simp only [canonicalFrom, Bool.and_eq_true, beq_iff_eq] at hc
    obtain ⟨⟨hsid, _⟩, hrest⟩ := hc
    simp only [List.map_cons, List.mem_cons] at hr
    rcases hr with hr | hr
    · subst hr
      simp [stepRowOf, hsid]
    · have := ih (k + 1) cid hrest r hr
      omega

theorem canonicalFrom_sort_fix (l : List ThoughtStep) :
    ∀ (k : Int) (cid : String), canonicalFrom k l = true →
      sortBySn (l.map (stepRowOf cid)) = l.map (stepRowOf cid) := by
  induction l with
  | nil => intro k cid _; rfl
  | cons st t ih =>
    intro k cid hc
    have hc0 := hc
    simp only [canonicalFrom, Bool.and_eq_true, beq_iff_eq] at hc
    obtain ⟨⟨hsid, _⟩, hrest⟩ := hc
    simp only [List.map_cons, sortBySn]
    rw [ih (k + 1) cid hrest]
    refine insertBySn_front _ _ ?_
    intro y hy
    have hlb := canonicalFrom_map_lb t (k + 1) cid hrest y hy
    have : (stepRowOf cid st).step_number = k := by simp [stepRowOf, hsid]
    omega

theorem canonicalFrom_rows_roundtrip (l : List ThoughtStep) :
    ∀ (k : Int) (cid : String), canonicalFrom k l = true →
      (l.map (stepRowOf cid)).map rowToStep = l := by
  induction l with
  | nil => intro k cid _; rfl
  | cons st t ih =>
    intro k cid hc
    simp only [canonicalFrom, Bool.and_eq_true, beq_iff_eq] at hc
    obtain ⟨⟨hsid, hsb⟩, hrest⟩ := hc
    simp only [List.map_cons]
    rw [ih (k + 1) cid hrest]
    have hhead : rowToStep (stepRowOf cid st) = st := by
      obtain ⟨sid, sth, srf, sts, sic, sbo⟩ := st
      simp only at hsid hsb
      simp only [rowToStep, stepRowOf, ThoughtStep.mk.injEq, true_and, and_true]
      refine ⟨?_, ?_⟩
      · cases sic <;> rfl
      · rw [hsid, hsb]
    rw [hhead]

theorem checkChainSteps_ok (l : List ThoughtStep) :
    ∀ (i : Nat), (∀ st ∈ l, st.id ≠ 0 ∧ st.thought ≠ "") →
      checkChainSteps l i = .ok () := by
  induction l with
  | nil => intro i _; rfl
  | cons st t ih =>
    intro i h
    obtain ⟨h1, h2⟩ := h st (by simp)
    unfold checkChainSteps
    rw [if_neg (by simpa using h1), if_neg (by simpa using h2)]
    exact ih (i + 1) (fun st hst => h st (by simp [hst]))

theorem canonicalFrom_ids_pos (l : List ThoughtStep) :
    ∀ (k : Int), canonicalFrom k l = true → 1 ≤ k → ∀ st ∈ l, 1 ≤ st.id := by
  induction l with
  | nil => intro k _ _ st hst; cases hst
  | cons s0 t ih =>
    intro k hc hk st hst
    simp only [canonicalFrom, Bool.and_eq_true, beq_iff_eq] at hc
    obtain ⟨⟨hsid, _⟩, hrest⟩ := hc
    simp only [List.mem_cons] at hst
    rcases hst with hst | hst
    · subst hst; omega
    · exact ih (k + 1) hrest (by omega) st hst

theorem validateThoughtChain_ok (tc : ThoughtChain)
    (hid : tc.id ≠ "") (hcr : tc.created ≠ "")
    (hsteps : ∀ st ∈ tc.steps, st.id ≠ 0 ∧ st.thought ≠ "") :
    validateThoughtChain tc = .ok () := by
  unfold validateThoughtChain
  rw [if_neg (by simpa using hid), if_neg (by simpa using hcr)]
  exact checkChainSteps_ok tc.steps 0 hsteps

theorem saveThought_roundtrip_aux (db : DB) (tc : ThoughtChain)
    (hid : tc.id ≠ "") (hcr : tc.created ≠ "")
    (hth : ∀ st ∈ tc.steps, st.thought ≠ "")
    (hcanon : canonicalFrom 1 tc.steps = true)
    (hfault : db.fault = false) :
    ∃ db1, saveThought db tc = .ok db1 ∧ db1.fault = false ∧
      getThoughtChain db1 tc.id = some tc := by
  have hval : validateThoughtChain tc = .ok () := by
    refine validateThoughtChain_ok tc hid hcr (fun st hst => ⟨?_, hth st hst⟩)
    have := canonicalFrom_ids_pos tc.steps 1 hcanon (by omega) st hst
    omega
  have hsave : saveThought db tc = .ok (saveToDisk { db with mem :=
      ⟨replaceChainRow db.mem.chains (chainRowOf tc),
       db.mem.steps.filter (fun r => r.chain_id != tc.id) ++
         tc.steps.map (stepRowOf tc.id)⟩ }) := by
    unfold saveThought
    rw [hval, if_neg (by simp [hfault])]
  refine ⟨_, hsave, by rw [saveToDisk_fault]; exact hfault, ?_⟩
  unfold getThoughtChain getThoughtChainEx queryChains querySteps
  rw [saveToDisk_fault]
  simp only [hfault, Bool.false_eq_true, if_false]
  rw [saveToDisk_mem]
  dsimp only
  unfold replaceChainRow
  rw [List.find?_cons_of_pos _ (by simp [chainRowOf])]
  dsimp only
  rw [if_neg (by simpa [chainRowOf] using hid)]
  dsimp only
  rw [List.filter_append, filter_neq_then_eq, filter_eq_map_stepRowOf]
  simp only [List.nil_append]
  unfold rowToChain
  rw [canonicalFrom_sort_fix tc.steps 1 tc.id hcanon,
    canonicalFrom_rows_roundtrip tc.steps 1 tc.id hcanon]
  rfl

/-- Claim C6 (amended): for every valid chain whose steps are canonically
numbered — ids 1..n in order with `builds_on` derived as the entity model
derives it — `saveThought` followed by `getThoughtChain` returns a chain
with identical id, timestamps, status and steps in the original order, and
saving the same chain twice yields the same retrievable state; for a chain
with non-canonical step numbering or linkage the retrieved `builds_on` is
recomputed from the stored step numbers and need not match the saved
value. -/
theorem put_get_roundtrip (db : DB) (tc : ThoughtChain)
    (hid : tc.id ≠ "") (hcr : tc.created ≠ "")
    (hth : ∀ st ∈ tc.steps, st.thought ≠ "")
    (hcanon : canonicalFrom 1 tc.steps = true)
    (hfault : db.fault = false) :
    ∃ db1, saveThought db tc = .ok db1 ∧ getThoughtChain db1 tc.id = some tc ∧
      ∃ db2, saveThought db1 tc = .ok db2 ∧ getThoughtChain db2 tc.id = some tc := by
  obtain ⟨db1, h1, hf1, hg1⟩ := saveThought_roundtrip_aux db tc hid hcr hth hcanon hfault
  obtain ⟨db2, h2, _, hg2⟩ := saveThought_roundtrip_aux db1 tc hid hcr hth hcanon hf1
  exact ⟨db1, h1, hg1, db2, h2, hg2⟩

/-- Witness for the amended claim C6 on a canonical two-step chain saved
into an empty store. -/
theorem put_get_roundtrip_w :
    roundtripChain.id ≠ "" ∧ canonicalFrom 1 roundtripChain.steps = true ∧
    (∃ db1, saveThought emptyDB roundtripChain = .ok db1 ∧
      getThoughtChain db1 roundtripChain.id = some roundtripChain ∧
      ∃ db2, saveThought db1 roundtripChain = .ok db2 ∧
        getThoughtChain db2 roundtripChain.id = some roundtripChain) :=
  ⟨by decide, by decide,
   put_get_roundtrip emptyDB roundtripChain (by decide) (by decide) (by decide)
     (by decide) (by decide)⟩
